import Mathlib

/-!
Verification development for the incident-to-remediation pipeline in `app.py`
(repository `cooktheryan/wrangler`).

The Python source is shallowly embedded: Python `str` values become `List Char`,
fallible calls become `Except`, the external world (ServiceNow, OpenAI, git,
GitHub) is passed in as explicit response environments, and the side effects the
spec talks about (incident state updates, the inter-cycle sleep, the local
working directory) are recorded explicitly in the result of each modelled
operation.
-/

/-! ### String primitives shared by the embedding

`backtick` is the character `` ` `` (code point 96).  `pyWhitespace` is the set
of characters removed by Python's `str.strip()`. -/

def backtick : Char := Char.ofNat 96

def pyWhitespace (c : Char) : Bool :=
  c == ' ' || c == '\t' || c == '\n' || c == '\r' || c == Char.ofNat 11 || c == Char.ofNat 12

/-- Python `s.strip()` on `List Char`: drop leading then trailing whitespace. -/
def stripChars (s : List Char) : List Char :=
  ((s.dropWhile pyWhitespace).reverse.dropWhile pyWhitespace).reverse

/-- Python `s.lower()` on `List Char`. -/
def lowerChars (s : List Char) : List Char := s.map Char.toLower

/-- The markdown code-fence token ```` ``` ````. -/
def tickPat : List Char := [backtick, backtick, backtick]

/-- The YAML document marker line `'---\n'` prepended by `format_playbook_content`. -/
def docMarker : List Char := ['-', '-', '-', '\n']

/-- The pattern `'```yaml'` removed first by `format_playbook_content`. -/
def yamlPat : List Char := [backtick, backtick, backtick, 'y', 'a', 'm', 'l']

/-- Fuel-driven worker for `removeAll`.  Implements Python
`s.replace(pat, '')` for a non-empty `pat`: scan left to right, remove each
occurrence of `pat` at the earliest position, continue scanning right after the
removed occurrence (occurrences are non-overlapping).  The fuel argument only
makes the recursion structural; `removeAll` always supplies enough fuel. -/
def removeAllF (pat : List Char) : Nat → List Char → List Char
  | _, [] => []
  | 0, s => s
  | fuel + 1, a :: as =>
    if pat.isPrefixOf (a :: as) then removeAllF pat fuel ((a :: as).drop pat.length)
    else a :: removeAllF pat fuel as

/-- Python `s.replace(pat, '')` for non-empty `pat` on `List Char`. -/
def removeAll (pat s : List Char) : List Char := removeAllF pat s.length s

/-- Python `s.replace('```', '')` from `format_playbook_content` (app.py line 71). -/
def removeTicks (s : List Char) : List Char := removeAll tickPat s

/-- Python `s.replace('```yaml', '')` from `format_playbook_content` (app.py line 71). -/
def removeTicksYaml (s : List Char) : List Char := removeAll yamlPat s

/-- `format_playbook_content` (app.py lines 69-72):
`'---\n' + content.replace('```yaml', '').replace('```', '').strip()`. -/
def format_playbook_content (content : List Char) : List Char :=
  docMarker ++ stripChars (removeTicks (removeTicksYaml content))

/-! ### External-world response types

Each operation that talks to an external collaborator is a pure function of an
explicit response environment describing what the collaborator would answer. -/

/-- One incident record as read from the ServiceNow `result` array.  Python
reads fields with `.get`, which yields `None` when absent, hence `Option`. -/
structure Incident where
  sys_id : Option (List Char)
  description : Option (List Char)
deriving DecidableEq

/-- Outcome of the HTTP GET inside `get_most_recent_incident`: either the
request itself raised (network failure / malformed response), or an HTTP
response with a status code and the decoded `result` array. -/
inductive FetchResponse
  | netFailure
  | httpResponse (status : Nat) (result : List Incident)
deriving DecidableEq

/-- The spec's error taxonomy for the incident fetch: `TransportError` for a
network-level failure, `BackendError` for a non-success HTTP status. -/
inductive FetchErr
  | transport
  | backend (status : Nat)
deriving DecidableEq

/-- Failure modes of one OpenAI chat-completion call as used by the source:
the API call raising, or `response['choices'][0]` failing because the response
carries no choices (an empty response). -/
inductive PErr
  | apiFailure
  | emptyChoices
deriving DecidableEq

/-- An OpenAI chat-completion response: the message contents of its choices. -/
structure ProviderResp where
  choices : List (List Char)
deriving DecidableEq

/-- `response['choices'][0]['message']['content'].strip()` (app.py lines 65, 99):
raises (here: errors) when the response has no choices. -/
def extractChoice (r : ProviderResp) : Except PErr (List Char) :=
  match r.choices with
  | [] => .error .emptyChoices
  | c :: _ => .ok (stripChars c)

instance {ε α : Type} [DecidableEq ε] [DecidableEq α] : DecidableEq (Except ε α) := fun a b =>
  match a, b with
  | .ok x, .ok y =>
    if h : x = y then .isTrue (by rw [h]) else .isFalse (fun hh => by cases hh; exact h rfl)
  | .error x, .error y =>
    if h : x = y then .isTrue (by rw [h]) else .isFalse (fun hh => by cases hh; exact h rfl)
  | .ok _, .error _ => .isFalse (fun hh => by cases hh)
  | .error _, .ok _ => .isFalse (fun hh => by cases hh)

/-! ### RecordQueryClient: `get_most_recent_incident` (app.py lines 40-54) -/

/-- The `try` body of `get_most_recent_incident`: `response.raise_for_status()`
raises `HTTPError` for any status in 400..599 (the spec's `BackendError`), a
network failure raises a transport exception (the spec's `TransportError`);
otherwise the decoded `result` array is returned. -/
def fetch_attempt (resp : FetchResponse) : Except FetchErr (List Incident) :=
  match resp with
  | .netFailure => .error .transport
  | .httpResponse status result =>
    if 400 ≤ status ∧ status < 600 then .error (.backend status) else .ok result

/-- `get_most_recent_incident`: both exception handlers only log and fall off
the end of the function, so every failure yields `None`; otherwise
`incidents[0] if incidents else None`. -/
def get_most_recent_incident (resp : FetchResponse) : Option Incident :=
  match fetch_attempt resp with
  | .error _ => none
  | .ok incidents => incidents.head?

/-! ### DraftGenerator: `ask_openai` (app.py lines 56-67) -/

/-- `ask_openai`: the `openai.ChatCompletion.create` call is not guarded, so a
provider failure propagates; otherwise the first choice's content is stripped
and returned (note: the source never rejects an *empty string* content). -/
def ask_openai (resp : Except PErr ProviderResp) : Except PErr (List Char) :=
  match resp with
  | .error e => .error e
  | .ok r => extractChoice r

/-! ### MatchEvaluator: `search_existing_playbooks` (app.py lines 79-103) -/

/-- Errors that can escape `search_existing_playbooks`: the unguarded
`git.Repo.clone_from` in `clone_existing_playbooks_repo` (the spec's
`SourceUnavailableError`), or an unguarded classification call. -/
inductive SearchErr
  | cloneFailed
  | provider (e : PErr)
deriving DecidableEq

/-- The keyword test on one classification answer:
`"matches" in evaluation.lower()` (app.py line 100). -/
def matchesKeyword (evaluation : List Char) : Bool :=
  decide (("matches".data : List Char) <:+: lowerChars evaluation)

/-- The `for playbook in existing_playbooks` loop of
`search_existing_playbooks`: classify each candidate in enumeration order,
return the first one whose judgment contains the keyword, propagate any
classification failure, fall through to `None`. -/
def searchLoop (evalOf : List Char → Except PErr ProviderResp) :
    List (List Char) → Except SearchErr (Option (List Char))
  | [] => .ok none
  | p :: rest =>
    match evalOf p with
    | .error e => .error (.provider e)
    | .ok r =>
      match extractChoice r with
      | .error e => .error (.provider e)
      | .ok evaluation =>
        if matchesKeyword evaluation then .ok (some p) else searchLoop evalOf rest

/-- `search_existing_playbooks description`: re-clone the catalog repository
(`cloneRes` is its outcome, the playbook file contents in `os.walk`
enumeration order), then run the classification loop.  `evalOf` maps the pair
(description, playbook) to the provider's response for that classification
call. -/
def search_existing_playbooks (description : List Char)
    (cloneRes : Except Unit (List (List Char)))
    (evalOf : List Char → List Char → Except PErr ProviderResp) :
    Except SearchErr (Option (List Char)) :=
  match cloneRes with
  | .error _ => .error .cloneFailed
  | .ok playbooks => searchLoop (evalOf description) playbooks

/-- The classifier judgment for a single candidate, as the cycle sees it:
the provider call and choice extraction composed with the keyword test. -/
def judgeResult (evalOf : List Char → Except PErr ProviderResp) (p : List Char) :
    Except SearchErr Bool :=
  match evalOf p with
  | .error e => .error (.provider e)
  | .ok r =>
    match extractChoice r with
    | .error e => .error (.provider e)
    | .ok evaluation => .ok (matchesKeyword evaluation)

/-! ### PublishPipeline: `create_pull_request` (app.py lines 105-155) -/

/-- A decoded JSON object (e.g. the pull-request creation response body),
modelled as an association list of string keys to string values. -/
abbrev JsonObj : Type := List (List Char × List Char)

/-- Python `d[k]` on a decoded JSON object: `some` value or (`none` =) KeyError. -/
def jsonLookup (js : JsonObj) (k : List Char) : Option (List Char) :=
  match js with
  | [] => none
  | kv :: rest => if kv.1 = k then some kv.2 else jsonLookup rest k

/-- Outcomes chosen by the external world for each step of
`create_pull_request`: the clone, branch creation, file write, commit+push,
and the pull-request POST (which can itself raise, or answer with a status
code and JSON body). -/
structure PublishEnv where
  cloneRes : Except Unit Unit
  dirAfterFailedClone : Bool
  branchRes : Except Unit Unit
  writeRes : Except Unit Unit
  commitPushRes : Except Unit Unit
  postRes : Except Unit Unit
  status : Nat
  body : JsonObj
deriving DecidableEq

/-- The spec's taxonomy for exceptions escaping `create_pull_request`:
`RepoAccessError` for the clone, `PublishError` for branch/write/commit/push,
and a transport failure of the pull-request POST itself. -/
inductive PubErr
  | repoAccess
  | publish
  | requestTransport
deriving DecidableEq

/-- What `create_pull_request` leaves behind: its return value (`.ok (some js)`
for HTTP 201, `.ok none` otherwise, `.error` when a step raised), whether the
local working directory `repo` still exists, and whether the branch was pushed. -/
structure PublishOutcome where
  result : Except PubErr (Option JsonObj)
  dirRemains : Bool
  pushed : Bool
deriving DecidableEq

/-- The `finally` block of `create_pull_request` (app.py lines 152-155):
`if os.path.isdir(repo_dir): shutil.rmtree(repo_dir)`. -/
def removeDirIfExists (d : Bool) : Bool := if d then false else d

/-- The `try` body of `create_pull_request` (app.py lines 110-151), before the
`finally` cleanup runs.  Each component is `(return value, directory exists,
branch pushed)`.  A successful clone materialises the working directory; a
failed clone leaves it in whatever state the failure produced. -/
def create_pull_request_attempt (env : PublishEnv) :
    Except PubErr (Option JsonObj) × Bool × Bool :=
  match env.cloneRes with
  | .error _ => (.error .repoAccess, env.dirAfterFailedClone, false)
  | .ok _ =>
    match env.branchRes with
    | .error _ => (.error .publish, true, false)
    | .ok _ =>
      match env.writeRes with
      | .error _ => (.error .publish, true, false)
      | .ok _ =>
        match env.commitPushRes with
        | .error _ => (.error .publish, true, false)
        | .ok _ =>
          match env.postRes with
          | .error _ => (.error .requestTransport, true, true)
          | .ok _ =>
            if env.status = 201 then (.ok (some env.body), true, true)
            else (.ok none, true, true)

/-- `create_pull_request` (app.py lines 105-155): run the `try` body, then the
`finally` cleanup on the working directory; the return value and the pushed
branch are unaffected by the cleanup.  `playbook_content` (the formatted
document written to the branch file) does not influence control flow. -/
def create_pull_request (env : PublishEnv) (_playbook_content : List Char) : PublishOutcome :=
  let b := create_pull_request_attempt env
  { result := b.1, dirRemains := removeDirIfExists b.2.1, pushed := b.2.2 }

/-! ### IncidentStateUpdater: `update_incident_state` (app.py lines 157-174) -/

/-- `AWAITING_USER_INFO_STATE_ID` (app.py line 30). -/
def AWAITING_USER_INFO_STATE_ID : List Char := "your_awaiting_user_info_state_id".data

/-- The comment attached on the matched path (app.py line 199). -/
def matchedPathComment : List Char :=
  "Use the following playbook: https://github.com/cooktheryan/existing-playbooks.git".data

/-- `update_incident_state` (app.py lines 157-174): the PATCH and its
`raise_for_status` are wrapped in a `try` whose handlers only log, so the
function returns normally on every input; it reports success exactly when the
PATCH went through with a success status. -/
def update_incident_state (resp : Except Unit Nat) : Bool :=
  match resp with
  | .error _ => false
  | .ok status => decide (status < 400)

/-- One recorded invocation of `update_incident_state` by the loop:
the arguments it was called with. -/
structure UpdateCall where
  sysId : Option (List Char)
  state : List Char
  comment : Option (List Char)
deriving DecidableEq

/-! ### WorkflowLoop: `process_incidents` (app.py lines 176-226) -/

/-- Everything the external world decides during one cycle of
`process_incidents`. -/
structure CycleEnv where
  fetch : FetchResponse
  cloneRes : Except Unit (List (List Char))
  evalOf : List Char → List Char → Except PErr ProviderResp
  gen : Except PErr ProviderResp
  pub : PublishEnv

/-- How one cycle of the loop ended. -/
inductive Outcome
  | noIncident
  | noDescription
  | matched
  | prCreated
  | prFailed
  | cycleFailure
deriving DecidableEq

/-- Observable behaviour of one cycle: the `update_incident_state` invocations
issued (in order), whether `ask_openai` and `create_pull_request` were invoked,
how the cycle ended, and whether `time.sleep(5)` ran before the next cycle. -/
structure CycleResult where
  updates : List UpdateCall
  generated : Bool
  published : Bool
  outcome : Outcome
  slept : Bool
deriving DecidableEq

/-- The generation branch of a cycle (app.py lines 202-220), reached when no
existing playbook matched: draft via `ask_openai` (unguarded, failures land in
the cycle's `except`), format, publish, and on a truthy pull-request response
read `pr_response['html_url']` (line 216, a KeyError when absent) before
updating the incident state with no comment (line 218).  A falsy response
(`None`, or an empty JSON body) only logs an error. -/
def generation_branch (env : CycleEnv) (incident : Incident) : CycleResult :=
  match ask_openai env.gen with
  | .error _ => ⟨[], true, false, .cycleFailure, true⟩
  | .ok content =>
    match (create_pull_request env.pub (format_playbook_content content)).result with
    | .error _ => ⟨[], true, true, .cycleFailure, true⟩
    | .ok none => ⟨[], true, true, .prFailed, true⟩
    | .ok (some js) =>
      if js = ([] : JsonObj) then ⟨[], true, true, .prFailed, true⟩
      else
        match jsonLookup js "html_url".data with
        | none => ⟨[], true, true, .cycleFailure, true⟩
        | some _ =>
          ⟨[⟨incident.sys_id, AWAITING_USER_INFO_STATE_ID, none⟩], true, true, .prCreated, true⟩

/-- One full cycle of the `while True` loop in `process_incidents`
(app.py lines 177-226).  The `except` at line 222 catches every exception from
the `try` body, logs it, and falls through to the `time.sleep(5)` at line 226.
The two early `continue`s (no incident, no description) sleep first; the
matched-path `continue` at line 200 does not sleep.  Python truthiness is
modelled literally: a missing *or empty* description is skipped, and a matched
playbook with empty content fails the `if existing_playbook:` test and falls
through to the generation branch. -/
def process_incidents_cycle (env : CycleEnv) : CycleResult :=
  match get_most_recent_incident env.fetch with
  | none => ⟨[], false, false, .noIncident, true⟩
  | some incident =>
    match incident.description with
    | none => ⟨[], false, false, .noDescription, true⟩
    | some description =>
      if description = [] then ⟨[], false, false, .noDescription, true⟩
      else
        match search_existing_playbooks description env.cloneRes env.evalOf with
        | .error _ => ⟨[], false, false, .cycleFailure, true⟩
        | .ok (some playbook) =>
          if playbook = [] then generation_branch env incident
          else
            ⟨[⟨incident.sys_id, AWAITING_USER_INFO_STATE_ID, some matchedPathComment⟩],
              false, false, .matched, false⟩
        | .ok none => generation_branch env incident

/-- `process_incidents` as a trace transformer: the loop body is applied to the
per-cycle environments in order, one cycle completing before the next starts. -/
def process_incidents (envs : List CycleEnv) : List CycleResult :=
  envs.map process_incidents_cycle

/-! ### Auxiliary definitions for the proofs and concrete scenario inputs -/

/-- Number of leading backticks of a string (proof infrastructure for the
fence-removal lemmas). -/
def leadTicks (s : List Char) : Nat := (s.takeWhile (fun c => c == backtick)).length

/-- A concrete incident with sys_id `"i1"` and description `"df"`. -/
def incidentA : Incident := ⟨some ['i', '1'], some ['d', 'f']⟩

/-- A classifier environment whose judgment is always the text `"matches"`. -/
def evalYes : List Char → List Char → Except PErr ProviderResp :=
  fun _ _ => .ok ⟨[['m', 'a', 't', 'c', 'h', 'e', 's']]⟩

/-- A classifier environment whose judgment is always the text `"no"`. -/
def evalNo : List Char → List Char → Except PErr ProviderResp :=
  fun _ _ => .ok ⟨[['n', 'o']]⟩

/-- A catalog of five playbooks `a` … `e` (P2's scenario). -/
def fiveBooks : List (List Char) := [['a'], ['b'], ['c'], ['d'], ['e']]

/-- A classifier judging exactly the catalog entries at positions 2 and 4
(1-based) of `fiveBooks` to match. -/
def evalSecondFourth : List Char → List Char → Except PErr ProviderResp :=
  fun _ p =>
    .ok ⟨[if p = ['b'] ∨ p = ['d'] then ['m', 'a', 't', 'c', 'h', 'e', 's'] else ['n', 'o']]⟩

/-- A publish environment where every step succeeds and the pull-request POST
answers 201 with a body carrying `html_url`. -/
def pubOk : PublishEnv :=
  ⟨.ok (), true, .ok (), .ok (), .ok (), .ok (), 201, [("html_url".data, ['u'])]⟩

/-- Like `pubOk` but the pull-request POST answers 422. -/
def pubNon201 : PublishEnv := { pubOk with status := 422, body := [] }

/-- Like `pubOk` (HTTP 201) but the body lacks the `html_url` field. -/
def pubNoUrl : PublishEnv := { pubOk with body := [(['k'], ['v'])] }

/-- Like `pubOk` (HTTP 201) but with an empty JSON body. -/
def pubEmptyBody : PublishEnv := { pubOk with body := [] }

/-- A cycle in which the catalog entry matches the incident description. -/
def cenvMatched : CycleEnv :=
  ⟨.httpResponse 200 [incidentA], .ok [['p']], evalYes, .ok ⟨[['x']]⟩, pubOk⟩

/-- A cycle with no catalog match, successful generation and publication. -/
def cenvGenerated : CycleEnv :=
  ⟨.httpResponse 200 [incidentA], .ok [['p']], evalNo, .ok ⟨[['x']]⟩, pubOk⟩

/-- Like `cenvGenerated` but the generation call fails. -/
def cenvGenFail : CycleEnv := { cenvGenerated with gen := .error .apiFailure }

/-- Like `cenvGenerated` but the generation call returns no choices. -/
def cenvGenEmpty : CycleEnv := { cenvGenerated with gen := .ok ⟨[]⟩ }

/-- Like `cenvGenerated` but the pull-request POST answers 422. -/
def cenvPrFail : CycleEnv := { cenvGenerated with pub := pubNon201 }

/-- Like `cenvGenerated` but the 201 body lacks `html_url`. -/
def cenvNoUrl : CycleEnv := { cenvGenerated with pub := pubNoUrl }

/-- Like `cenvGenerated` but the 201 body is the empty JSON object. -/
def cenvEmptyBody : CycleEnv := { cenvGenerated with pub := pubEmptyBody }

/-- A cycle whose incident fetch fails at the network level. -/
def cenvFetchNet : CycleEnv := { cenvGenerated with fetch := .netFailure }

/-- A cycle whose incident fetch is answered with HTTP 500. -/
def cenvFetch500 : CycleEnv := { cenvGenerated with fetch := .httpResponse 500 [] }

/-! ### List-infix helper lemmas -/

theorem infix_cons_ext {t x : List Char} (a : Char) (h : t <:+: x) : t <:+: (a :: x) := by
  obtain ⟨s, u, hs⟩ := h
  exact ⟨a :: s, u, by simp [hs]⟩

theorem infix_cons_split {t x : List Char} {a : Char} (h : t <:+: (a :: x)) :
    t <+: (a :: x) ∨ t <:+: x := by
  obtain ⟨s, u, hs⟩ := h
  cases s with
  | nil => exact Or.inl ⟨u, by simpa using hs⟩
  | cons s0 s' =>
    right
    rw [List.cons_append, List.cons_append] at hs
    exact ⟨s', u, (List.cons_eq_cons.mp hs).2⟩

theorem infix_trans' {t x y : List Char} (h₁ : t <:+: x) (h₂ : x <:+: y) : t <:+: y := by
  obtain ⟨s, u, hs⟩ := h₁
  obtain ⟨v, w, hv⟩ := h₂
  exact ⟨v ++ s, u ++ w, by rw [← hv, ← hs]; simp⟩

theorem not_infix_nil {t : List Char} (hne : t ≠ []) : ¬ t <:+: ([] : List Char) := by
  rintro ⟨s, u, hs⟩
  rcases List.append_eq_nil.mp (List.append_eq_nil.mp hs).1 with ⟨-, h2⟩
  exact hne h2

/-! ### Properties of the fence-removal scans -/

theorem removeAllF_irrel (pat : List Char) (hpat : pat ≠ []) : ∀ (f₁ f₂ : Nat) (s : List Char),
    s.length ≤ f₁ → s.length ≤ f₂ → removeAllF pat f₁ s = removeAllF pat f₂ s := by
  intro f₁
  induction f₁ with
  | zero =>
    intro f₂ s h₁ _
    rcases s with _ | ⟨a, as⟩
    · simp [removeAllF]
    · simp at h₁
  | succ n ih =>
    intro f₂ s h₁ h₂
    rcases s with _ | ⟨a, as⟩
    · simp [removeAllF]
    · cases f₂ with
      | zero => simp at h₂
      | succ m =>
        have hp1 : 1 ≤ pat.length := by
          cases pat
          · exact absurd rfl hpat
          · simp
        simp only [removeAllF]
        split
        · exact ih m _ (by simp only [List.length_drop, List.length_cons] at *; omega)
            (by simp only [List.length_drop, List.length_cons] at *; omega)
        · exact congrArg _ (ih m as (by simp only [List.length_cons] at h₁; omega)
            (by simp only [List.length_cons] at h₂; omega))

theorem removeAll_nil (pat : List Char) : removeAll pat [] = [] := rfl

theorem removeAll_cons (pat : List Char) (hpat : pat ≠ []) (a : Char) (as : List Char) :
    removeAll pat (a :: as) =
      if pat.isPrefixOf (a :: as) then removeAll pat ((a :: as).drop pat.length)
      else a :: removeAll pat as := by
  have hp1 : 1 ≤ pat.length := by
    cases pat
    · exact absurd rfl hpat
    · simp
  show removeAllF pat (as.length + 1) (a :: as) = _
  simp only [removeAllF]
  split
  · exact removeAllF_irrel pat hpat _ _ _
      (by simp only [List.length_drop, List.length_cons]; omega)
      (by simp only [List.length_drop, List.length_cons]; omega)
  · exact congrArg _ (removeAllF_irrel pat hpat _ _ as (by omega) (by omega))

theorem removeAll_length_le (pat : List Char) (hpat : pat ≠ []) :
    ∀ s, (removeAll pat s).length ≤ s.length := by
  have hp1 : 1 ≤ pat.length := by
    cases pat
    · exact absurd rfl hpat
    · simp
  intro s
  generalize hn : s.length = n
  induction n using Nat.strong_induction_on generalizing s with
  | _ n ih =>
    rcases s with _ | ⟨a, as⟩
    · simp [removeAll_nil]
    · rw [removeAll_cons pat hpat]
      subst hn
      split
      · have hd : ((a :: as).drop pat.length).length = as.length + 1 - pat.length := by
          simp [List.length_drop]
        have := ih ((a :: as).drop pat.length).length
          (by simp only [hd, List.length_cons]; omega) _ rfl
        simp only [List.length_cons]
        omega
      · have := ih as.length (by simp only [List.length_cons]; omega) as rfl
        simp only [List.length_cons]
        omega

theorem removeAll_shrinks (pat : List Char) (hpat : pat ≠ []) :
    ∀ s, pat <:+: s → (removeAll pat s).length < s.length := by
  have hp1 : 1 ≤ pat.length := by
    cases pat
    · exact absurd rfl hpat
    · simp
  intro s
  generalize hn : s.length = n
  induction n using Nat.strong_induction_on generalizing s with
  | _ n ih =>
    intro hinf
    rcases s with _ | ⟨a, as⟩
    · exact absurd hinf (not_infix_nil hpat)
    · rw [removeAll_cons pat hpat]
      subst hn
      split
      · have hd : ((a :: as).drop pat.length).length = as.length + 1 - pat.length := by
          simp [List.length_drop]
        have := removeAll_length_le pat hpat ((a :: as).drop pat.length)
        simp only [List.length_cons]
        omega
      · rename_i hnp
        rcases infix_cons_split hinf with hpre | htail
        · rw [← List.isPrefixOf_iff_prefix] at hpre
          exact absurd hpre hnp
        · have := ih as.length (by simp only [List.length_cons]; omega) as rfl htail
          simp only [List.length_cons]
          omega

theorem removeAll_eq_self (pat : List Char) (hpat : pat ≠ []) :
    ∀ s, ¬ pat <:+: s → removeAll pat s = s := by
  intro s
  generalize hn : s.length = n
  induction n using Nat.strong_induction_on generalizing s with
  | _ n ih =>
    intro hno
    rcases s with _ | ⟨a, as⟩
    · simp [removeAll_nil]
    · rw [removeAll_cons pat hpat]
      subst hn
      split
      · rename_i hpre
        rw [List.isPrefixOf_iff_prefix] at hpre
        obtain ⟨u, hu⟩ := hpre
        exact absurd ⟨[], u, by simpa using hu⟩ hno
      · exact congrArg _ (ih as.length (by simp only [List.length_cons]; omega) as rfl
          (fun hin => hno (infix_cons_ext a hin)))

theorem removeAll_cons_ne (pat : List Char) (hpat : pat ≠ []) {a : Char} (as : List Char)
    (hne : pat.head? ≠ some a) : removeAll pat (a :: as) = a :: removeAll pat as := by
  rw [removeAll_cons pat hpat, if_neg]
  intro hpre
  rw [List.isPrefixOf_iff_prefix] at hpre
  obtain ⟨u, hu⟩ := hpre
  cases pat with
  | nil => exact hpat rfl
  | cons p pr =>
    simp only [List.cons_append] at hu
    exact hne (congrArg some (List.cons_eq_cons.mp hu).1)

theorem tickPat_ne_nil : tickPat ≠ [] := by simp [tickPat]

theorem yamlPat_ne_nil : yamlPat ≠ [] := by simp [yamlPat]

theorem leadTicks_cons (a : Char) (s : List Char) :
    leadTicks (a :: s) = if a = backtick then leadTicks s + 1 else 0 := by
  by_cases h : a = backtick <;> simp [leadTicks, List.takeWhile_cons, h]

theorem leadTicks_ge_two {s : List Char} (h : 2 ≤ leadTicks s) :
    ∃ w, s = backtick :: backtick :: w := by
  rcases s with _ | ⟨a, _ | ⟨b, w⟩⟩
  · simp [leadTicks] at h
  · by_cases ha : a = backtick <;> simp [leadTicks, leadTicks_cons, ha] at h
  · by_cases ha : a = backtick
    · by_cases hb : b = backtick
      · exact ⟨w, by rw [ha, hb]⟩
      · simp [leadTicks_cons, ha, hb] at h
    · simp [leadTicks_cons, ha] at h

theorem tick_prefix_shape {a : Char} {as : List Char} (h : tickPat <+: (a :: as)) :
    a = backtick ∧ ∃ u, as = backtick :: backtick :: u := by
  obtain ⟨u, hu⟩ := h
  simp only [tickPat, List.cons_append, List.nil_append] at hu
  obtain ⟨h1, hu2⟩ := List.cons_eq_cons.mp hu
  exact ⟨h1.symm, u, hu2.symm⟩

theorem removeAll_tick_lead_le : ∀ s, leadTicks (removeAll tickPat s) ≤ leadTicks s := by
  intro s
  generalize hn : s.length = n
  induction n using Nat.strong_induction_on generalizing s with
  | _ n ih =>
    rcases s with _ | ⟨a, as⟩
    · simp [removeAll_nil]
    · rw [removeAll_cons tickPat tickPat_ne_nil]
      subst hn
      split
      · rename_i hpre
        rw [List.isPrefixOf_iff_prefix] at hpre
        obtain ⟨ha, u, hu⟩ := tick_prefix_shape hpre
        subst ha
        subst hu
        have hdrop : (backtick :: backtick :: backtick :: u).drop tickPat.length = u := by
          simp [tickPat]
        rw [hdrop]
        have := ih u.length (by simp only [List.length_cons]; omega) u rfl
        simp [leadTicks_cons]
        omega
      · simp only [leadTicks_cons]
        by_cases hb : a = backtick
        · simp only [if_pos hb]
          have := ih as.length (by simp only [List.length_cons]; omega) as rfl
          omega
        · simp [if_neg hb]

theorem removeAll_tick_no_fence : ∀ s, ¬ tickPat <:+: removeAll tickPat s := by
  intro s
  generalize hn : s.length = n
  induction n using Nat.strong_induction_on generalizing s with
  | _ n ih =>
    rcases s with _ | ⟨a, as⟩
    · rw [removeAll_nil]
      exact not_infix_nil tickPat_ne_nil
    · rw [removeAll_cons tickPat tickPat_ne_nil]
      subst hn
      split
      · rename_i hpre
        rw [List.isPrefixOf_iff_prefix] at hpre
        obtain ⟨ha, u, hu⟩ := tick_prefix_shape hpre
        subst ha
        subst hu
        have hdrop : (backtick :: backtick :: backtick :: u).drop tickPat.length = u := by
          simp [tickPat]
        rw [hdrop]
        exact ih u.length (by simp only [List.length_cons]; omega) u rfl
      · rename_i hnp
        intro hinf
        rcases infix_cons_split hinf with hpre | htail
        · obtain ⟨hb, v, hv⟩ := tick_prefix_shape hpre
          have h2 : 2 ≤ leadTicks (removeAll tickPat as) := by
            rw [hv]
            simp [leadTicks_cons]
          have h3 : 2 ≤ leadTicks as := le_trans h2 (removeAll_tick_lead_le as)
          obtain ⟨w, hw⟩ := leadTicks_ge_two h3
          apply hnp
          rw [List.isPrefixOf_iff_prefix]
          exact ⟨w, by rw [hb, hw]; simp [tickPat]⟩
        · exact absurd htail (ih as.length (by simp only [List.length_cons]; omega) as rfl)

/-! ### Properties of `stripChars` -/

theorem suffix_dropWhile (p : Char → Bool) (l : List Char) : ∃ u, u ++ l.dropWhile p = l := by
  induction l with
  | nil => exact ⟨[], rfl⟩
  | cons a l ih =>
    by_cases h : p a
    · obtain ⟨u, hu⟩ := ih
      exact ⟨a :: u, by simp [List.dropWhile_cons, h, hu]⟩
    · exact ⟨[], by simp [List.dropWhile_cons, h]⟩

theorem dropWhile_head_false (p : Char → Bool) (l : List Char) :
    ∀ a t, l.dropWhile p = a :: t → p a = false := by
  induction l with
  | nil => intro a t h; simp at h
  | cons b l ih =>
    intro a t h
    cases hpb : p b
    · rw [List.dropWhile_cons, if_neg (by simp [hpb])] at h
      obtain ⟨h1, -⟩ := List.cons_eq_cons.mp h
      rw [← h1]
      exact hpb
    · rw [List.dropWhile_cons, if_pos (by simp [hpb])] at h
      exact ih a t h

theorem stripChars_within (s : List Char) : stripChars s <:+: s := by
  unfold stripChars
  obtain ⟨u, hu⟩ := suffix_dropWhile pyWhitespace s
  obtain ⟨v, hv⟩ := suffix_dropWhile pyWhitespace (s.dropWhile pyWhitespace).reverse
  refine ⟨u, v.reverse, ?_⟩
  have hback :
      (List.dropWhile pyWhitespace (s.dropWhile pyWhitespace).reverse).reverse ++ v.reverse =
        s.dropWhile pyWhitespace := by
    rw [← List.reverse_append, hv, List.reverse_reverse]
  rw [List.append_assoc, hback, hu]

theorem strip_marker_append (y : List Char) (hno : stripChars y ≠ []) :
    stripChars (docMarker ++ stripChars y) = docMarker ++ stripChars y := by
  have hwsdash : pyWhitespace '-' = false := by decide
  have hwrev : (stripChars y).reverse =
      List.dropWhile pyWhitespace (y.dropWhile pyWhitespace).reverse := by
    unfold stripChars
    rw [List.reverse_reverse]
  obtain ⟨a, t, hat⟩ : ∃ a t, (stripChars y).reverse = a :: t := by
    rcases hrev : (stripChars y).reverse with _ | ⟨a, t⟩
    · refine absurd ?_ hno
      rw [← List.reverse_reverse (stripChars y), hrev]
      rfl
    · exact ⟨a, t, rfl⟩
  have hpa : pyWhitespace a = false :=
    dropWhile_head_false _ _ a t (by rw [← hwrev]; exact hat)
  have h1 : (docMarker ++ stripChars y).dropWhile pyWhitespace = docMarker ++ stripChars y := by
    show List.dropWhile pyWhitespace ('-' :: (['-', '-', '\n'] ++ stripChars y)) = _
    rw [List.dropWhile_cons, if_neg (by simp [hwsdash])]
    rfl
  show ((List.dropWhile pyWhitespace (docMarker ++ stripChars y)).reverse.dropWhile
      pyWhitespace).reverse = docMarker ++ stripChars y
  rw [h1, List.reverse_append, hat, List.cons_append, List.dropWhile_cons,
    if_neg (by simp [hpa]), ← List.cons_append, ← hat, ← List.reverse_append,
    List.reverse_reverse]

/-! ### Behaviour of the formatter on marker-prefixed text -/

theorem removeAll_docMarker_append (pat : List Char) (hpat : pat ≠ [])
    (hhead : pat.head? = some backtick) (w : List Char) :
    removeAll pat (docMarker ++ w) = docMarker ++ removeAll pat w := by
  have h1 : pat.head? ≠ some '-' := by rw [hhead]; decide
  have h2 : pat.head? ≠ some '\n' := by rw [hhead]; decide
  show removeAll pat ('-' :: ('-' :: ('-' :: ('\n' :: w)))) =
    '-' :: ('-' :: ('-' :: ('\n' :: removeAll pat w)))
  rw [removeAll_cons_ne pat hpat _ h1, removeAll_cons_ne pat hpat _ h1,
    removeAll_cons_ne pat hpat _ h1, removeAll_cons_ne pat hpat _ h2]

theorem tickPat_infix_yamlPat : tickPat <:+: yamlPat :=
  ⟨[], ['y', 'a', 'm', 'l'], by simp [tickPat, yamlPat]⟩

/-- The normalized body of a formatted playbook contains no fence token. -/
theorem body_no_fence (content : List Char) :
    ¬ tickPat <:+: stripChars (removeTicks (removeTicksYaml content)) := by
  intro h
  exact removeAll_tick_no_fence (removeTicksYaml content)
    (infix_trans' h (stripChars_within _))

/-- Applying the two replaces and the strip to an already-formatted document
leaves it unchanged, provided its body is non-empty. -/
theorem normalize_formatted (content : List Char)
    (hne : stripChars (removeTicks (removeTicksYaml content)) ≠ []) :
    stripChars (removeTicks (removeTicksYaml
      (format_playbook_content content))) = format_playbook_content content := by
  have hw : ¬ tickPat <:+: stripChars (removeTicks (removeTicksYaml content)) :=
    body_no_fence content
  have hyaml : removeTicksYaml (format_playbook_content content) =
      format_playbook_content content := by
    show removeAll yamlPat (docMarker ++ _) = _
    rw [removeAll_docMarker_append yamlPat yamlPat_ne_nil rfl,
      removeAll_eq_self yamlPat yamlPat_ne_nil _
        (fun hh => hw (infix_trans' tickPat_infix_yamlPat hh))]
    rfl
  have hticks : removeTicks (format_playbook_content content) =
      format_playbook_content content := by
    show removeAll tickPat (docMarker ++ _) = _
    rw [removeAll_docMarker_append tickPat tickPat_ne_nil rfl,
      removeAll_eq_self tickPat tickPat_ne_nil _ hw]
    rfl
  rw [hyaml, hticks]
  exact strip_marker_append _ hne

/-! ### The classification loop returns the first judged match -/

theorem searchLoop_cons (ev : List Char → Except PErr ProviderResp) (p : List Char)
    (rest : List (List Char)) :
    searchLoop ev (p :: rest) =
      match judgeResult ev p with
      | .error e => .error e
      | .ok true => .ok (some p)
      | .ok false => searchLoop ev rest := by
  simp only [searchLoop, judgeResult]
  rcases ev p with e | r
  · rfl
  · rcases hex : extractChoice r with e | evt
    · simp [hex]
    · simp only [hex]
      cases hk : matchesKeyword evt <;> simp [hk]

theorem searchLoop_first (ev : List Char → Except PErr ProviderResp) :
    ∀ (pbs : List (List Char)) (i : Nat) (hi : i < pbs.length),
      (∀ p ∈ pbs.take i, judgeResult ev p = .ok false) →
      judgeResult ev (pbs.get ⟨i, hi⟩) = .ok true →
      searchLoop ev pbs = .ok (some (pbs.get ⟨i, hi⟩)) := by
  intro pbs
  induction pbs with
  | nil => intro i hi; simp at hi
  | cons q rest ih =>
    intro i hi hbefore hmatch
    cases i with
    | zero =>
      rw [searchLoop_cons]
      rw [show (q :: rest).get ⟨0, hi⟩ = q from rfl] at hmatch ⊢
      rw [hmatch]
    | succ j =>
      have hq : judgeResult ev q = .ok false := by
        refine hbefore q ?_
        rw [List.take_succ_cons]
        exact List.mem_cons_self q _
      rw [searchLoop_cons, hq]
      have hj : j < rest.length := by simpa using hi
      have hbefore' : ∀ p ∈ rest.take j, judgeResult ev p = .ok false := by
        intro p hp
        refine hbefore p ?_
        rw [List.take_succ_cons]
        exact List.mem_cons_of_mem q hp
      have hmatch' : judgeResult ev (rest.get ⟨j, hj⟩) = .ok true := by
        rw [show (q :: rest).get ⟨j + 1, hi⟩ = rest.get ⟨j, hj⟩ from rfl] at hmatch
        exact hmatch
      rw [show (q :: rest).get ⟨j + 1, hi⟩ = rest.get ⟨j, hj⟩ from rfl]
      exact ih j hj hbefore' hmatch'

theorem searchLoop_none (ev : List Char → Except PErr ProviderResp) :
    ∀ pbs, (∀ p ∈ pbs, judgeResult ev p = .ok false) → searchLoop ev pbs = .ok none := by
  intro pbs
  induction pbs with
  | nil => intro _; rfl
  | cons q rest ih =>
    intro h
    rw [searchLoop_cons, h q (List.mem_cons_self q _)]
    exact ih fun p hp => h p (List.mem_cons_of_mem q hp)

/-! ### Shape of a single cycle's observable behaviour -/

theorem create_pull_request_content_irrel (env : PublishEnv) (c₁ c₂ : List Char) :
    create_pull_request env c₁ = create_pull_request env c₂ := rfl

theorem removeDirIfExists_false (d : Bool) : removeDirIfExists d = false := by
  cases d <;> rfl

theorem create_pull_request_ok_pushed (env : PublishEnv) (c : List Char)
    (r : Option JsonObj) (h : (create_pull_request env c).result = .ok r) :
    (create_pull_request env c).pushed = true := by
  revert h
  unfold create_pull_request create_pull_request_attempt
  repeat' split <;> (try simp_all)

theorem cycle_update_shape (env : CycleEnv) :
    (process_incidents_cycle env).updates.length ≤ 1 ∧
    ∀ u ∈ (process_incidents_cycle env).updates,
      ((process_incidents_cycle env).outcome = .matched ∧
        u.state = AWAITING_USER_INFO_STATE_ID ∧ u.comment = some matchedPathComment) ∨
      ((process_incidents_cycle env).outcome = .prCreated ∧
        u.state = AWAITING_USER_INFO_STATE_ID ∧ u.comment = none) := by
  unfold process_incidents_cycle generation_branch
  repeat' split <;> (try simp_all)

theorem cycle_sleep_iff_not_matched (env : CycleEnv) :
    (process_incidents_cycle env).slept = false ↔
      (process_incidents_cycle env).outcome = Outcome.matched := by
  unfold process_incidents_cycle generation_branch
  repeat' split <;> (try simp_all)

/-! ### Claim theorems -/

/-- C1: for every poll cycle of the workflow loop, the incident state update
operation is invoked at most once, and when it is invoked it is along exactly
one of the two paths — the matched path (with the catalog-reference comment) or
the generated path after a successful publish (with no comment) — never both in
the same cycle. -/
theorem at_most_one_update_per_cycle :
    ∀ (envs : List CycleEnv) (r : CycleResult), r ∈ process_incidents envs →
      r.updates.length ≤ 1 ∧
      ∀ u ∈ r.updates,
        (r.outcome = Outcome.matched ∧
          u.state = AWAITING_USER_INFO_STATE_ID ∧ u.comment = some matchedPathComment) ∨
        (r.outcome = Outcome.prCreated ∧
          u.state = AWAITING_USER_INFO_STATE_ID ∧ u.comment = none) := by
  intro envs r hr
  obtain ⟨env, -, rfl⟩ := List.mem_map.mp hr
  exact cycle_update_shape env

theorem at_most_one_update_per_cycle_witness :
    (process_incidents_cycle cenvMatched).updates.length ≤ 1 ∧
    ∀ u ∈ (process_incidents_cycle cenvMatched).updates,
      ((process_incidents_cycle cenvMatched).outcome = Outcome.matched ∧
        u.state = AWAITING_USER_INFO_STATE_ID ∧ u.comment = some matchedPathComment) ∨
      ((process_incidents_cycle cenvMatched).outcome = Outcome.prCreated ∧
        u.state = AWAITING_USER_INFO_STATE_ID ∧ u.comment = none) :=
  at_most_one_update_per_cycle [cenvMatched] _ (by simp [process_incidents])

/-- C2 counterexample: in the cycle environment `cenvMatched` the loop takes
the matched path and the `continue` at app.py line 200 skips the
`time.sleep(5)` at line 226, so this cycle does not sleep before the next one —
refuting "the loop sleeps the fixed interval between cycles regardless of which
outcome the cycle took". -/
theorem matched_cycle_skips_sleep_cex :
    (process_incidents_cycle cenvMatched).outcome = Outcome.matched ∧
    (process_incidents_cycle cenvMatched).slept = false := by decide

/-- C2 amended: between two consecutive cycles the loop sleeps the fixed
interval on every outcome except the matched path; a cycle skips the sleep
exactly when it ended by acknowledging a catalog match. -/
theorem sleep_between_cycles_iff_not_matched :
    ∀ (envs : List CycleEnv) (r : CycleResult), r ∈ process_incidents envs →
      (r.slept = false ↔ r.outcome = Outcome.matched) := by
  intro envs r hr
  obtain ⟨env, -, rfl⟩ := List.mem_map.mp hr
  exact cycle_sleep_iff_not_matched env

theorem sleep_between_cycles_iff_not_matched_witness :
    (process_incidents_cycle cenvGenerated).slept = false ↔
      (process_incidents_cycle cenvGenerated).outcome = Outcome.matched :=
  sleep_between_cycles_iff_not_matched [cenvGenerated] _ (by simp [process_incidents])

/-- C3 counterexample: the formatter is not idempotent — on the raw text `"a"`
a second application prepends the document marker a second time. -/
theorem format_not_idempotent_cex :
    format_playbook_content (format_playbook_content ['a']) ≠
      format_playbook_content ['a'] := by decide

/-- C3 amended: the fence-stripping and trimming steps are idempotent in
effect, but the formatter unconditionally prepends the document marker, so for
every raw text whose normalized body is non-empty, applying the formatter to
its own output yields the once-formatted document with the marker prepended a
second time — not the same document. -/
theorem format_twice_prepends_marker (content : List Char)
    (h : stripChars (removeTicks (removeTicksYaml content)) ≠ []) :
    format_playbook_content (format_playbook_content content) =
      docMarker ++ format_playbook_content content := by
  show docMarker ++ stripChars (removeTicks (removeTicksYaml
    (format_playbook_content content))) = _
  rw [normalize_formatted content h]

theorem format_twice_prepends_marker_witness :
    stripChars (removeTicks (removeTicksYaml ['a'])) ≠ [] ∧
    format_playbook_content (format_playbook_content ['a']) =
      docMarker ++ format_playbook_content ['a'] :=
  ⟨by decide, format_twice_prepends_marker ['a'] (by decide)⟩

/-- C4: on every exit path of `create_pull_request` — success, failure at any
step, or an exception — the local working directory no longer exists when the
operation returns, because the `finally` block removes it. -/
theorem publish_cleanup_guarantee :
    ∀ (env : PublishEnv) (content : List Char),
      (create_pull_request env content).dirRemains = false := by
  intro env content
  exact removeDirIfExists_false _

/-- C5: for every incident description and catalog, the match evaluator
returns the first catalog entry (in enumeration order) judged a match by the
classifier, and returns absent when no entry is judged a match (in particular
when the catalog is empty). -/
theorem first_match_wins :
    (∀ (description : List Char) (catalog : List (List Char))
        (evalOf : List Char → List Char → Except PErr ProviderResp) (i : Nat)
        (hi : i < catalog.length),
        (∀ p ∈ catalog.take i, judgeResult (evalOf description) p = .ok false) →
        judgeResult (evalOf description) (catalog.get ⟨i, hi⟩) = .ok true →
        search_existing_playbooks description (.ok catalog) evalOf =
          .ok (some (catalog.get ⟨i, hi⟩))) ∧
    (∀ (description : List Char) (catalog : List (List Char))
        (evalOf : List Char → List Char → Except PErr ProviderResp),
        (∀ p ∈ catalog, judgeResult (evalOf description) p = .ok false) →
        search_existing_playbooks description (.ok catalog) evalOf = .ok none) := by
  constructor
  · intro d pbs ev i hi hbefore hmatch
    exact searchLoop_first (ev d) pbs i hi hbefore hmatch
  · intro d pbs ev h
    exact searchLoop_none (ev d) pbs h

theorem first_match_wins_witness :
    search_existing_playbooks ['d'] (.ok fiveBooks) evalSecondFourth = .ok (some ['b']) ∧
    search_existing_playbooks ['d'] (.ok fiveBooks) evalNo = .ok none :=
  ⟨first_match_wins.1 ['d'] fiveBooks evalSecondFourth 1 (by decide) (by decide) (by decide),
    first_match_wins.2 ['d'] fiveBooks evalNo (by decide)⟩

/-- C6: the draft generation fails both when the provider call fails and when
the provider returns an empty response (no choices, so `['choices'][0]`
raises); in either case the cycle that reached generation issues no publish
call and no incident state update, ending as a per-cycle failure. -/
theorem generation_failure_aborts_cycle :
    (∀ e, ask_openai (.error e) = .error e) ∧
    (ask_openai (.ok ⟨[]⟩) = .error PErr.emptyChoices) ∧
    (∀ (env : CycleEnv) (e : PErr), (process_incidents_cycle env).generated = true →
      ask_openai env.gen = .error e →
      (process_incidents_cycle env).updates = [] ∧
      (process_incidents_cycle env).published = false ∧
      (process_incidents_cycle env).outcome = Outcome.cycleFailure) := by
  refine ⟨fun e => rfl, rfl, ?_⟩
  intro env e hgen hask
  revert hgen
  unfold process_incidents_cycle generation_branch
  repeat' split <;> (try simp_all)

theorem generation_failure_aborts_cycle_witness :
    (process_incidents_cycle cenvGenFail).generated = true ∧
    ask_openai cenvGenFail.gen = .error PErr.apiFailure ∧
    ((process_incidents_cycle cenvGenFail).updates = [] ∧
      (process_incidents_cycle cenvGenFail).published = false ∧
      (process_incidents_cycle cenvGenFail).outcome = Outcome.cycleFailure) :=
  ⟨by decide, by decide,
    generation_failure_aborts_cycle.2.2 cenvGenFail PErr.apiFailure (by decide) (by decide)⟩

/-- C7: when the pull-request API answers a non-success (non-201) response,
`create_pull_request` returns absent (`.ok none`) instead of raising — with the
branch still pushed — and a cycle that reached publishing with such an outcome
ends as `prFailed` with no incident state update, sleeping before the next
cycle. -/
theorem pr_failure_absent_no_update :
    (∀ (env : PublishEnv) (content : List Char),
      env.cloneRes = .ok () → env.branchRes = .ok () → env.writeRes = .ok () →
      env.commitPushRes = .ok () → env.postRes = .ok () → env.status ≠ 201 →
      (create_pull_request env content).result = .ok none ∧
      (create_pull_request env content).pushed = true) ∧
    (∀ env : CycleEnv, (process_incidents_cycle env).published = true →
      (create_pull_request env.pub []).result = .ok none →
      (process_incidents_cycle env).outcome = Outcome.prFailed ∧
      (process_incidents_cycle env).updates = [] ∧
      (process_incidents_cycle env).slept = true) := by
  constructor
  · intro env content h1 h2 h3 h4 h5 h6
    simp [create_pull_request, create_pull_request_attempt, h1, h2, h3, h4, h5, h6]
  · intro env hpub hnone
    have hirr : ∀ c, create_pull_request env.pub c = create_pull_request env.pub [] :=
      fun _ => rfl
    revert hpub
    unfold process_incidents_cycle generation_branch
    simp only [hirr]
    repeat' split <;> (try simp_all)

theorem pr_failure_absent_no_update_witness :
    ((create_pull_request pubNon201 []).result = .ok none ∧
      (create_pull_request pubNon201 []).pushed = true) ∧
    ((process_incidents_cycle cenvPrFail).outcome = Outcome.prFailed ∧
      (process_incidents_cycle cenvPrFail).updates = [] ∧
      (process_incidents_cycle cenvPrFail).slept = true) :=
  ⟨pr_failure_absent_no_update.1 pubNon201 [] rfl rfl rfl rfl rfl (by decide),
    pr_failure_absent_no_update.2 cenvPrFail (by decide) (by decide)⟩

/-- C8: the incident fetch fails with the transport error on a network failure
and with the backend error on a non-success HTTP status; both failures are
swallowed inside `get_most_recent_incident` (logged, `None` returned), so the
cycle is skipped with no state update and the loop sleeps and proceeds — the
error never escapes the loop. -/
theorem fetch_failure_skips_cycle :
    (fetch_attempt FetchResponse.netFailure = .error FetchErr.transport) ∧
    (∀ (status : Nat) (result : List Incident), 400 ≤ status → status < 600 →
      fetch_attempt (.httpResponse status result) = .error (.backend status)) ∧
    (∀ env : CycleEnv,
      (env.fetch = FetchResponse.netFailure ∨
        ∃ status result, env.fetch = .httpResponse status result ∧
          400 ≤ status ∧ status < 600) →
      process_incidents_cycle env = ⟨[], false, false, Outcome.noIncident, true⟩) := by
  refine ⟨rfl, ?_, ?_⟩
  · intro status result h1 h2
    simp [fetch_attempt, h1, h2]
  · intro env h
    have hnone : get_most_recent_incident env.fetch = none := by
      rcases h with h | ⟨status, result, heq, hs1, hs2⟩
      · rw [h]; rfl
      · rw [heq]; simp [get_most_recent_incident, fetch_attempt, hs1, hs2]
    unfold process_incidents_cycle
    rw [hnone]

theorem fetch_failure_skips_cycle_witness :
    (fetch_attempt (.httpResponse 500 []) = .error (.backend 500)) ∧
    process_incidents_cycle cenvFetchNet = ⟨[], false, false, Outcome.noIncident, true⟩ ∧
    process_incidents_cycle cenvFetch500 = ⟨[], false, false, Outcome.noIncident, true⟩ :=
  ⟨fetch_failure_skips_cycle.2.1 500 [] (by decide) (by decide),
    fetch_failure_skips_cycle.2.2 cenvFetchNet (Or.inl rfl),
    fetch_failure_skips_cycle.2.2 cenvFetch500 (Or.inr ⟨500, [], rfl, by decide, by decide⟩)⟩

/-- C9: for every raw generated text, the formatted document begins with the
fixed document marker line `'---\n'` and contains no markdown code-fence token
anywhere. -/
theorem formatted_document_marker_no_fences (content : List Char) :
    docMarker <+: format_playbook_content content ∧
    ¬ tickPat <:+: format_playbook_content content := by
  constructor
  · exact ⟨_, rfl⟩
  · intro hinf
    have hw := body_no_fence content
    have hstep : removeAll tickPat (format_playbook_content content) =
        format_playbook_content content := by
      show removeAll tickPat (docMarker ++ _) = _
      rw [removeAll_docMarker_append tickPat tickPat_ne_nil rfl,
        removeAll_eq_self tickPat tickPat_ne_nil _ hw]
      rfl
    have hlen := removeAll_shrinks tickPat tickPat_ne_nil _ hinf
    rw [hstep] at hlen
    exact lt_irrefl _ hlen

/-- C10 counterexample: a 201 response whose JSON body is the *empty* object
lacks `html_url`, yet the cycle does not raise — `if pr_response:` is falsy for
an empty dict, so the cycle ends on the "failed to create pull request" log
path (`prFailed`), not by a KeyError — refuting "for any 201 response whose
body lacks that field, the lookup raises". -/
theorem empty_201_body_no_raise_cex :
    (create_pull_request cenvEmptyBody.pub []).result = .ok (some ([] : JsonObj)) ∧
    process_incidents_cycle cenvEmptyBody = ⟨[], true, true, Outcome.prFailed, true⟩ := by
  decide

/-- C10 amended: when publish returns a 201 response whose body is truthy
(non-empty) but lacks `html_url`, the `pr_response['html_url']` read at app.py
line 216 raises before the state update at line 218, so the cycle ends as a
failure with no incident state update even though the branch was pushed. -/
theorem missing_html_url_fails_cycle_without_update :
    ∀ (env : CycleEnv) (js : JsonObj),
      (process_incidents_cycle env).published = true →
      (create_pull_request env.pub []).result = .ok (some js) →
      js ≠ [] →
      jsonLookup js "html_url".data = none →
      (process_incidents_cycle env).outcome = Outcome.cycleFailure ∧
      (process_incidents_cycle env).updates = [] ∧
      (create_pull_request env.pub []).pushed = true := by
  intro env js hpub hres hne hlook
  have hmain : (process_incidents_cycle env).outcome = Outcome.cycleFailure ∧
      (process_incidents_cycle env).updates = [] := by
    have hirr : ∀ c, create_pull_request env.pub c = create_pull_request env.pub [] :=
      fun _ => rfl
    revert hpub
    unfold process_incidents_cycle generation_branch
    simp only [hirr]
    repeat' split <;> (try simp_all)
  exact ⟨hmain.1, hmain.2, create_pull_request_ok_pushed env.pub [] _ hres⟩

theorem missing_html_url_fails_cycle_without_update_witness :
    (process_incidents_cycle cenvNoUrl).outcome = Outcome.cycleFailure ∧
    (process_incidents_cycle cenvNoUrl).updates = [] ∧
    (create_pull_request cenvNoUrl.pub []).pushed = true :=
  missing_html_url_fails_cycle_without_update cenvNoUrl [(['k'], ['v'])]
    (by decide) (by decide) (by decide) (by decide)
